import Mathlib

/-!
Verification of the PKB MCP server (`src/server.py`), a thin client that
stores a personal knowledge base as markdown files in a GitHub repository.

The remote content API (PyGithub) is modelled in two layers:

* an abstract `RemoteRepo` interface (read a file with its revision token,
  conditional update, create), over which `create_or_update_file` and
  `get_file_content` are embedded exactly as in the source; and
* a concrete `Store` state (a path → content map with injectable read/write
  faults) instantiating the interface, over which the tool handlers
  (`add_til`, `add_prompt`, `add_pattern`, `search_pkb`, `list_entries`)
  are embedded.

GitHub exceptions (`GithubException`) are modelled by `GHExc` carrying the
HTTP status and the error-payload message.  The current UTC date, produced
by `_today()` in the source, is passed to each handler as an explicit
`date_str` argument.  `slugify` comes from a third-party library whose code
is not part of the repository; it is modelled from the spec.
-/

/-- A `GithubException`: HTTP status plus the message of the error payload
(`exc.data.get('message', str(exc))` in the source). -/
structure GHExc where
  status : Nat
  msg : String
deriving DecidableEq, Repr

/-- Result of `repo.get_contents` on a file: the decoded text content and the
opaque revision token (`sha`). -/
structure FileContents where
  content : String
  sha : String
deriving DecidableEq, Repr

/-- The remote repository operations used by the upsert logic, over an
abstract remote state `σ`: `get_contents path ref`, `update_file` (keyed on a
revision token) and `create_file`.  Reads leave the state unchanged; writes
return the next state or a `GHExc`. -/
structure RemoteRepo (σ : Type) where
  get_contents : σ → String → Except GHExc FileContents
  update_file : σ → (path message content sha branch : String) → Except GHExc σ
  create_file : σ → (path message content branch : String) → Except GHExc σ

/-- `GITHUB_REPO` defaults to `pdawson1983/dawson-pkb`. -/
def GITHUB_REPO : String := "pdawson1983/dawson-pkb"

/-- `_html_url_for`: browser URL for a file path in the repo. -/
def html_url_for (path : String) : String :=
  "https://github.com/" ++ GITHUB_REPO ++ "/blob/main/" ++ path

/-- `_get_file_content`: decoded text of a file, or `none` if it does not
exist (status 404); any other `GithubException` propagates. -/
def get_file_content (R : RemoteRepo σ) (s : σ) (path : String) :
    Except GHExc (Option String) :=
  match R.get_contents s path with
  | .ok contents => .ok (some contents.content)
  | .error exc => if exc.status = 404 then .ok none else .error exc

/-- `_create_or_update_file`: read the current revision token for `path`;
if the file exists, update conditionally on its `sha`; if the read reported
404, create; any other read failure propagates.  Returns the browser URL of
the file together with the remote state after the write. -/
def create_or_update_file (R : RemoteRepo σ) (s : σ)
    (path content message : String) : Except GHExc (String × σ) :=
  match R.get_contents s path with
  | .ok existing =>
      (R.update_file s path message content existing.sha "main").map
        (fun s' => (html_url_for path, s'))
  | .error exc =>
      if exc.status ≠ 404 then .error exc
      else
        (R.create_file s path message content "main").map
          (fun s' => (html_url_for path, s'))

/-- Lookup in an association list keyed by strings (paths). -/
def assoc_find : List (String × α) → String → Option α
  | [], _ => none
  | (p, v) :: rest, q => if p = q then some v else assoc_find rest q

/-- Overwrite (or add) the binding of `path` in a path → content map. -/
def set_file (files : List (String × String)) (path content : String) :
    List (String × String) :=
  (path, content) :: files.filter (fun kv => kv.1 ≠ path)

/-- Concrete remote state: the repository's files (path → decoded content),
plus injectable faults: paths whose read fails with a given exception and
paths whose write fails with a given exception.  The revision token of a
file is modelled as its content (an injective stand-in for the blob sha). -/
structure Store where
  files : List (String × String)
  failGets : List (String × GHExc)
  failPuts : List (String × GHExc)
deriving Repr

/-- `repo.get_contents` on the concrete store: injected failure if any,
otherwise the file's content and revision token, otherwise status 404. -/
def gh_get_contents (s : Store) (path : String) : Except GHExc FileContents :=
  match assoc_find s.failGets path with
  | some exc => .error exc
  | none =>
      match assoc_find s.files path with
      | some content => .ok ⟨content, content⟩
      | none => .error ⟨404, "Not Found"⟩

/-- `repo.update_file` on the concrete store: injected failure if any; fails
with 404 if the file is absent, with 409 if the revision token does not match
the current content; otherwise overwrites the file. -/
def gh_update_file (s : Store) (path _message content sha _branch : String) :
    Except GHExc Store :=
  match assoc_find s.failPuts path with
  | some exc => .error exc
  | none =>
      match assoc_find s.files path with
      | some cur =>
          if sha = cur then
            .ok { s with files := set_file s.files path content }
          else .error ⟨409, "Conflict"⟩
      | none => .error ⟨404, "Not Found"⟩

/-- `repo.create_file` on the concrete store: injected failure if any; fails
with 422 if the file already exists; otherwise adds the file. -/
def gh_create_file (s : Store) (path _message content _branch : String) :
    Except GHExc Store :=
  match assoc_find s.failPuts path with
  | some exc => .error exc
  | none =>
      match assoc_find s.files path with
      | some _ => .error ⟨422, "Invalid Request"⟩
      | none => .ok { s with files := set_file s.files path content }

/-- The concrete store as an instance of the remote interface. -/
def ghStore : RemoteRepo Store :=
  ⟨gh_get_contents, fun s p m c sha b => gh_update_file s p m c sha b,
    fun s p m c b => gh_create_file s p m c b⟩

/-- Auxiliary for `slugify`: maximal runs of alphanumeric characters, in
order; every non-alphanumeric character acts as a separator. -/
def slug_runs : List Char → List (List Char)
  | [] => []
  | c :: cs =>
      if c.isAlphanum then
        (c :: cs.takeWhile Char.isAlphanum) ::
          slug_runs (cs.dropWhile Char.isAlphanum)
      else slug_runs cs
termination_by l => l.length
decreasing_by
  · simpa using Nat.lt_succ_of_le (List.Sublist.length_le (List.dropWhile_sublist _))
  · simp

/-- Join alphanumeric runs with a single `-` separator. -/
def join_dash : List (List Char) → List Char
  | [] => []
  | [r] => r
  | r :: rs => r ++ '-' :: join_dash rs

/-- Modelled from the spec: `slugify` (the third-party `slugify` library,
imported by `src/server.py` but not part of the repository) lowercases its
input, replaces each run of non-alphanumeric characters with a single `-`
separator, and strips leading and trailing separators. -/
def slugify (text : String) : String :=
  String.mk (join_dash (slug_runs (text.data.map Char.toLower)))

/-- Python `str.lower()` (over the characters of the string). -/
def py_lower (s : String) : String :=
  String.mk (s.data.map Char.toLower)

/-- Python `str.strip()`: drop leading and trailing whitespace. -/
def py_strip (s : String) : String :=
  String.mk
    (((s.data.dropWhile Char.isWhitespace).reverse.dropWhile
        Char.isWhitespace).reverse)

/-- Python `str.rstrip("\n")`: drop trailing newline characters. -/
def rstrip_nl (s : String) : String :=
  String.mk ((s.data.reverse.dropWhile (fun c => c = '\n')).reverse)

/-- Lexicographic (code-point) comparison of character lists, the order in
which Python `sorted` arranges strings. -/
def chars_le : List Char → List Char → Bool
  | [], _ => true
  | _ :: _, [] => false
  | a :: as, b :: bs => if a = b then chars_le as bs else decide (a < b)

/-- Insert a string into a sorted list of strings. -/
def insert_sorted (x : String) : List String → List String
  | [] => [x]
  | y :: ys => if chars_le x.data y.data then x :: y :: ys else y :: insert_sorted x ys

/-- Python `sorted` on a collection of strings. -/
def sorted_strings (l : List String) : List String :=
  l.foldr insert_sorted []

/-- The closed set of prompt categories, in source order. -/
def VALID_PROMPT_CATEGORIES : List String :=
  ["coding", "infrastructure", "documentation", "general"]

/-- The closed set of pattern categories, in source order. -/
def VALID_PATTERN_CATEGORIES : List String :=
  ["agent", "cloud", "devops"]

/-- The closed set of sections accepted by `list_entries`, in source order. -/
def VALID_SECTIONS : List String :=
  ["til", "prompts", "patterns", "all"]

/-- `SECTION_PATH_MAP`. -/
def SECTION_PATH_MAP : List (String × String) :=
  [("til", "til/"), ("prompts", "ai/prompts/"), ("patterns", "patterns/")]

/-- The file name of a TIL entry: `{date}-{slugify(title)}.md`. -/
def til_filename (date_str title : String) : String :=
  date_str ++ "-" ++ slugify title ++ ".md"

/-- The storage path of a TIL entry: `til/{date}-{slugify(title)}.md`. -/
def til_file_path (date_str title : String) : String :=
  "til/" ++ til_filename date_str title

/-- The storage path of a prompt: `ai/prompts/{category}/{slugify(name)}.md`
(for the already-normalized category). -/
def prompt_file_path (category_lower name : String) : String :=
  "ai/prompts/" ++ category_lower ++ "/" ++ (slugify name ++ ".md")

/-- The storage path of a pattern: `patterns/{category}/{slugify(name)}.md`
(for the already-normalized category). -/
def pattern_file_path (category_lower name : String) : String :=
  "patterns/" ++ category_lower ++ "/" ++ (slugify name ++ ".md")

/-- `add_til`: build the entry document, upsert it at
`til/{date}-{slug}.md`, then read `til/index.md`, append the link line and
re-upsert the index.  A `GithubException` anywhere is rendered as the
`GitHub API error while adding TIL:` string, with the remote state as of the
failure. -/
def add_til (R : RemoteRepo σ) (s : σ) (date_str title content : String)
    (tags : List String) : String × σ :=
  let filename := til_filename date_str title
  let file_path := "til/" ++ filename
  let tags_yaml := if tags.isEmpty then "" else String.intercalate ", " tags
  let frontmatter :=
    "---\n" ++ "title: \"" ++ title ++ "\"\n" ++ "date: " ++ date_str ++ "\n"
      ++ "tags: [" ++ tags_yaml ++ "]\n" ++ "---\n\n"
  let full_content := frontmatter ++ content ++ "\n"
  match create_or_update_file R s file_path full_content
      ("Add TIL: " ++ title) with
  | .error exc => ("GitHub API error while adding TIL: " ++ exc.msg, s)
  | .ok (url, s1) =>
      let index_path := "til/index.md"
      match get_file_content R s1 index_path with
      | .error exc => ("GitHub API error while adding TIL: " ++ exc.msg, s1)
      | .ok existing_index =>
          let new_link :=
            "- [" ++ title ++ "](" ++ filename ++ ") (" ++ date_str ++ ")\n"
          let updated_index :=
            match existing_index with
            | some idx => rstrip_nl idx ++ "\n" ++ new_link
            | none => "# TIL Index\n\n" ++ new_link
          match create_or_update_file R s1 index_path updated_index
              ("Update TIL index: add " ++ title) with
          | .error exc =>
              ("GitHub API error while adding TIL: " ++ exc.msg, s1)
          | .ok (_, s2) =>
              ("TIL entry created: " ++ title ++ "\nURL: " ++ url, s2)

/-- `add_prompt`: validate the category (lowercased and stripped) against
the closed set, then upsert the prompt document at
`ai/prompts/{category}/{slug}.md`. -/
def add_prompt (R : RemoteRepo σ) (s : σ)
    (date_str name category content description : String) : String × σ :=
  let category_lower := py_strip (py_lower category)
  if !(VALID_PROMPT_CATEGORIES.contains category_lower) then
    ("Invalid category '" ++ category ++ "'. " ++ "Must be one of: " ++
      String.intercalate ", " (sorted_strings VALID_PROMPT_CATEGORIES), s)
  else
    let file_path := prompt_file_path category_lower name
    let frontmatter :=
      "---\n" ++ "name: \"" ++ name ++ "\"\n"
        ++ "category: " ++ category_lower ++ "\n"
        ++ "description: \"" ++ description ++ "\"\n"
        ++ "date: " ++ date_str ++ "\n" ++ "---\n\n"
    let full_content := frontmatter ++ content ++ "\n"
    match create_or_update_file R s file_path full_content
        ("Add prompt: " ++ name ++ " (" ++ category_lower ++ ")") with
    | .error exc => ("GitHub API error while adding prompt: " ++ exc.msg, s)
    | .ok (url, s1) =>
        ("Prompt saved: " ++ name ++ " [" ++ category_lower ++ "]\nURL: "
          ++ url, s1)

/-- `add_pattern`: validate the category (lowercased and stripped) against
the closed set, then upsert the pattern document (front-matter plus a
Problem/Solution body) at `patterns/{category}/{slug}.md`. -/
def add_pattern (R : RemoteRepo σ) (s : σ)
    (date_str name category problem solution : String)
    (tags : List String) : String × σ :=
  let category_lower := py_strip (py_lower category)
  if !(VALID_PATTERN_CATEGORIES.contains category_lower) then
    ("Invalid category '" ++ category ++ "'. " ++ "Must be one of: " ++
      String.intercalate ", " (sorted_strings VALID_PATTERN_CATEGORIES), s)
  else
    let file_path := pattern_file_path category_lower name
    let tags_yaml := if tags.isEmpty then "" else String.intercalate ", " tags
    let frontmatter :=
      "---\n" ++ "name: \"" ++ name ++ "\"\n"
        ++ "category: " ++ category_lower ++ "\n"
        ++ "date: " ++ date_str ++ "\n"
        ++ "tags: [" ++ tags_yaml ++ "]\n" ++ "---\n\n"
    let body :=
      "## Problem\n\n" ++ problem ++ "\n\n"
        ++ "## Solution\n\n" ++ solution ++ "\n"
    let full_content := frontmatter ++ body
    match create_or_update_file R s file_path full_content
        ("Add pattern: " ++ name ++ " (" ++ category_lower ++ ")") with
    | .error exc => ("GitHub API error while adding pattern: " ++ exc.msg, s)
    | .ok (url, s1) =>
        ("Pattern documented: " ++ name ++ " [" ++ category_lower
          ++ "]\nURL: " ++ url, s1)

/-- One item of the lazily paginated `search_code` result sequence: its file
path, and the outcome of fetching its decoded content (`none` models any
exception during the fetch, caught broadly by the source). -/
structure SearchItem where
  path : String
  fetch : Option String
deriving Repr

/-- Replace each newline by a space (`.replace("\n", " ")` on the 200-char
slice of the content). -/
def collapse_nl (l : List Char) : List Char :=
  l.map (fun c => if c = '\n' then ' ' else c)

/-- The snippet of a successfully fetched file: first 200 characters,
newlines collapsed to spaces, stripped, with `...` appended when the content
is longer than 200 characters. -/
def snippet_of (decoded : String) : String :=
  let snippet := py_strip (String.mk (collapse_nl (decoded.data.take 200)))
  if decoded.length > 200 then snippet ++ "..." else snippet

/-- The formatted match block for one search item. -/
def format_match (item : SearchItem) : String :=
  let snippet :=
    match item.fetch with
    | some decoded => snippet_of decoded
    | none => "(unable to retrieve snippet)"
  "- **" ++ item.path ++ "**\n  URL: " ++ html_url_for item.path
    ++ "\n  Snippet: " ++ snippet

/-- The search loop: format each item in order, breaking as soon as the list
of matches has reached 20 entries (`count` is the number of matches
collected so far). -/
def collect_matches : List SearchItem → Nat → List String
  | [], _ => []
  | item :: rest, count =>
      let m := format_match item
      if count + 1 ≥ 20 then [m] else m :: collect_matches rest (count + 1)

/-- `search_pkb` given the result sequence the remote search returned for
the query: at most 20 formatted matches, or the no-results message. -/
def search_pkb (query : String) (results : List SearchItem) : String :=
  let found := collect_matches results 0
  if found.isEmpty then "No results found for '" ++ query ++ "'."
  else
    "Found " ++ toString found.length ++ " result(s) for '" ++ query
      ++ "':\n\n" ++ String.intercalate "\n\n" found

/-- A directory subtree of the repository as `get_contents` reveals it:
files carry their path and name, directories their children. -/
inductive GHTree : Type
  | file (path name : String) : GHTree
  | dir (path : String) (children : List GHTree) : GHTree
deriving Repr

mutual

/-- Depth-first traversal of a subtree, collecting `(path, name)` for every
file, recursing into directories (`_list_files_recursive`'s loop). -/
def list_tree : GHTree → List (String × String)
  | .file path name => [(path, name)]
  | .dir _ children => list_tree_list children

/-- Traversal of a list of sibling items, in order. -/
def list_tree_list : List GHTree → List (String × String)
  | [] => []
  | t :: ts => list_tree t ++ list_tree_list ts

end

/-- `_list_files_recursive` applied to the outcome of resolving the root
path: a 404 from `get_contents` yields the empty list, any other exception
propagates, and a present subtree is traversed depth-first. -/
def list_files_recursive (r : Except GHExc GHTree) :
    Except GHExc (List (String × String)) :=
  match r with
  | .error exc => if exc.status = 404 then .ok [] else .error exc
  | .ok t => .ok (list_tree t)

/-- The remote state `list_entries` reads: the subtree found at each repo
path (or the exception resolving it raised), and the `_get_last_modified`
oracle, which degrades to `"unknown"` internally rather than failing. -/
structure ListWorld where
  subtree : String → Except GHExc GHTree
  last_modified : String → String

/-- Python `str.title()` restricted to the single lowercase section words it
is applied to: capitalize the first character, lowercase the rest. -/
def py_title (s : String) : String :=
  match s.data with
  | [] => ""
  | c :: cs => String.mk (c.toUpper :: cs.map Char.toLower)

/-- The body of the per-section loop of `list_entries`: header, then either
`(no entries yet)` (subtree missing or empty) or one block per file; a
non-404 exception propagates to the outer handler. -/
def render_section (w : ListWorld) (sec : String) : Except GHExc String :=
  let repo_path := (assoc_find SECTION_PATH_MAP sec).getD ""
  let header := "## " ++ py_title sec ++ "\n"
  match list_files_recursive (w.subtree repo_path) with
  | .error exc =>
      if exc.status = 404 then .ok (header ++ "  (no entries yet)\n")
      else .error exc
  | .ok items =>
      if items.isEmpty then .ok (header ++ "  (no entries yet)\n")
      else
        let entries := items.map (fun pn =>
          "- **" ++ pn.2 ++ "**\n" ++ "  Path: " ++ pn.1 ++ "\n"
            ++ "  Modified: " ++ w.last_modified pn.1 ++ "\n"
            ++ "  URL: " ++ html_url_for pn.1)
        .ok (header ++ String.intercalate "\n" entries ++ "\n")

/-- The loop over the sections to list, accumulating `output_parts`;
the first propagating exception aborts the loop. -/
def render_sections (w : ListWorld) : List String → Except GHExc (List String)
  | [] => .ok []
  | sec :: rest =>
      match render_section w sec with
      | .error exc => .error exc
      | .ok part => (render_sections w rest).map (fun parts => part :: parts)

/-- `list_entries`: validate the section, expand `"all"` to the fixed order
til, prompts, patterns, render each section, join with newlines and strip;
a propagating exception becomes the listing error string. -/
def list_entries (w : ListWorld) (sec : String) : String :=
  let section_lower := py_strip (py_lower sec)
  if !(VALID_SECTIONS.contains section_lower) then
    "Invalid section '" ++ sec ++ "'. " ++ "Must be one of: " ++
      String.intercalate ", " (sorted_strings VALID_SECTIONS)
  else
    let sections_to_list :=
      if section_lower = "all" then ["til", "prompts", "patterns"]
      else [section_lower]
    match render_sections w sections_to_list with
    | .error exc => "GitHub API error while listing entries: " ++ exc.msg
    | .ok parts => py_strip (String.intercalate "\n" parts)

example : slugify "Learned Recursion" = "learned-recursion" := by
  simp [slugify, slug_runs, join_dash]

example : slugify "Retry with Backoff" = "retry-with-backoff" := by
  simp [slugify, slug_runs, join_dash]

example : slugify "  Hello--World!  " = "hello-world" := by
  simp [slugify, slug_runs, join_dash]

/-! ### Properties of `slugify` -/

lemma char_toLower_toLower (c : Char) :
    Char.toLower (Char.toLower c) = Char.toLower c := by
  unfold Char.toLower
  by_cases h : c.toNat ≥ 65 ∧ c.toNat ≤ 90
  · rw [if_pos h]
    have hv : Nat.isValidChar (c.toNat + 32) := Or.inl (by omega)
    have ht : (Char.ofNat (c.toNat + 32)).toNat = c.toNat + 32 := by
      rw [Char.ofNat, dif_pos hv]; exact rfl
    rw [if_neg (by rw [ht]; omega)]
  · rw [if_neg h, if_neg h]

lemma slug_runs_sound {r : List Char} :
    ∀ {l : List Char}, r ∈ slug_runs l →
      (r ≠ [] ∧ ∀ c ∈ r, c.isAlphanum = true) ∧ ∀ c ∈ r, c ∈ l := by
  intro l
  induction l using slug_runs.induct with
  | case1 => intro h; simp [slug_runs] at h
  | case2 c cs hc ih =>
      intro h
      rw [slug_runs, if_pos hc] at h
      rcases List.mem_cons.mp h with h | h
      · subst h
        refine ⟨⟨by simp, ?_⟩, ?_⟩
        · intro x hx
          rcases List.mem_cons.mp hx with hx | hx
          · subst hx; exact hc
          · exact List.mem_takeWhile_imp hx
        · intro x hx
          rcases List.mem_cons.mp hx with hx | hx
          · subst hx; simp
          · exact List.mem_cons_of_mem _
              (List.Sublist.subset (List.takeWhile_sublist _) hx)
      · obtain ⟨h1, h2⟩ := ih h
        exact ⟨h1, fun x hx => List.mem_cons_of_mem _
          (List.Sublist.subset (List.dropWhile_sublist _) (h2 x hx))⟩
  | case3 c cs hc ih =>
      intro h
      rw [slug_runs, if_neg hc] at h
      obtain ⟨h1, h2⟩ := ih h
      exact ⟨h1, fun x hx => List.mem_cons_of_mem _ (h2 x hx)⟩

lemma takeWhile_append_all {p : Char → Bool} {l l' : List Char}
    (h : ∀ c ∈ l, p c = true) :
    (l ++ l').takeWhile p = l ++ l'.takeWhile p := by
  induction l with
  | nil => simp
  | cons c cs ih =>
      simp only [List.cons_append, List.takeWhile_cons,
        h c (by simp), if_pos rfl]
      rw [ih (fun x hx => h x (List.mem_cons_of_mem _ hx))]
      simp [h c (by simp)]

lemma dropWhile_append_all {p : Char → Bool} {l l' : List Char}
    (h : ∀ c ∈ l, p c = true) :
    (l ++ l').dropWhile p = l'.dropWhile p := by
  induction l with
  | nil => simp
  | cons c cs ih =>
      simp only [List.cons_append, List.dropWhile_cons, h c (by simp)]
      exact (by simpa using ih (fun x hx => h x (List.mem_cons_of_mem _ hx)))

lemma slug_runs_all_alnum {r : List Char} (hne : r ≠ [])
    (hall : ∀ c ∈ r, c.isAlphanum = true) : slug_runs r = [r] := by
  obtain ⟨c, cs, rfl⟩ := List.exists_cons_of_ne_nil hne
  rw [slug_runs, if_pos (hall c (by simp))]
  rw [List.takeWhile_eq_self_iff.mpr
    (fun x hx => hall x (List.mem_cons_of_mem _ hx))]
  rw [List.dropWhile_eq_nil_iff.mpr
    (fun x hx => hall x (List.mem_cons_of_mem _ hx))]
  simp [slug_runs]

lemma slug_runs_join_dash {rs : List (List Char)}
    (h : ∀ r ∈ rs, r ≠ [] ∧ ∀ c ∈ r, c.isAlphanum = true) :
    slug_runs (join_dash rs) = rs := by
  induction rs with
  | nil => simp [join_dash, slug_runs]
  | cons r rs ih =>
      cases rs with
      | nil =>
          obtain ⟨hne, hall⟩ := h r (by simp)
          simpa [join_dash] using slug_runs_all_alnum hne hall
      | cons r' rs' =>
          obtain ⟨hne, hall⟩ := h r (by simp)
          obtain ⟨c, cs, rfl⟩ := List.exists_cons_of_ne_nil hne
          have hcs : ∀ x ∈ cs, x.isAlphanum = true :=
            fun x hx => hall x (List.mem_cons_of_mem _ hx)
          show slug_runs ((c :: cs) ++ '-' :: join_dash (r' :: rs')) = _
          rw [List.cons_append, slug_runs, if_pos (hall c (by simp))]
          rw [takeWhile_append_all hcs, dropWhile_append_all hcs]
          have hdash : ('-' : Char).isAlphanum = false := by decide
          rw [List.takeWhile_cons, hdash]
          rw [List.dropWhile_cons]
          simp only [hdash, Bool.false_eq_true, if_false, if_neg]
          rw [slug_runs, if_neg (by simp [hdash])]
          rw [ih (fun x hx => h x (List.mem_cons_of_mem _ hx))]
          simp

lemma map_toLower_join_dash {rs : List (List Char)}
    (h : ∀ r ∈ rs, ∀ c ∈ r, Char.toLower c = c) :
    (join_dash rs).map Char.toLower = join_dash rs := by
  induction rs with
  | nil => simp [join_dash]
  | cons r rs ih =>
      have hr : r.map Char.toLower = r := by
        have := List.map_congr_left (fun c hc => h r (by simp) c hc)
        simpa using this
      cases rs with
      | nil => simpa [join_dash] using hr
      | cons r' rs' =>
          show ((r ++ '-' :: join_dash (r' :: rs')).map Char.toLower) = _
          rw [List.map_append, List.map_cons, hr,
            ih (fun q hq => h q (List.mem_cons_of_mem _ hq))]
          show r ++ '-'.toLower :: _ = join_dash (r :: r' :: rs')
          have hd : ('-' : Char).toLower = '-' := by decide
          rw [hd]
          rfl

/-- C9: `slugify` is idempotent — `slugify (slugify x) = slugify x` for every
text `x` — and pure and deterministic: the same input always yields the same
output. -/
theorem slugify_idempotent (x : String) :
    slugify (slugify x) = slugify x ∧
      ∀ y : String, y = x → slugify y = slugify x := by
  refine ⟨?_, fun y hy => by rw [hy]⟩
  unfold slugify
  have h1 : (String.mk (join_dash (slug_runs (x.data.map Char.toLower)))).data
      = join_dash (slug_runs (x.data.map Char.toLower)) := rfl
  rw [h1]
  have hfix : ∀ r ∈ slug_runs (x.data.map Char.toLower),
      ∀ c ∈ r, Char.toLower c = c := by
    intro r hr c hc
    have hmem : c ∈ x.data.map Char.toLower := (slug_runs_sound hr).2 c hc
    obtain ⟨c0, _, rfl⟩ := List.mem_map.mp hmem
    exact char_toLower_toLower c0
  rw [map_toLower_join_dash hfix,
    slug_runs_join_dash (fun r hr => (slug_runs_sound hr).1)]

/-- Witness for C9 at a concrete input. -/
theorem slugify_idempotent_witness :
    slugify (slugify "Learned Recursion!") = slugify "Learned Recursion!" :=
  (slugify_idempotent "Learned Recursion!").1

/-! ### The upsert and read contract (C1) -/

/-- C1: the upsert first reads the current revision token for the path: if
the file exists it issues a conditional update keyed on that token (the
`sha`), if the read reports 404 it issues a create, and a non-404 read
failure propagates; on a successful write (either branch) it returns the
stable browsable URL of the path.  Likewise `get_file_content` returns
`none` exactly when the remote reports 404, returns the decoded content when
the file exists, and propagates every other remote failure. -/
theorem upsert_and_read_contract {σ : Type} (R : RemoteRepo σ) (s : σ)
    (path content message : String) :
    (∀ fc, R.get_contents s path = .ok fc →
      create_or_update_file R s path content message =
        (R.update_file s path message content fc.sha "main").map
          (fun s' => (html_url_for path, s'))) ∧
    (∀ exc, R.get_contents s path = .error exc → exc.status = 404 →
      create_or_update_file R s path content message =
        (R.create_file s path message content "main").map
          (fun s' => (html_url_for path, s'))) ∧
    (∀ exc, R.get_contents s path = .error exc → exc.status ≠ 404 →
      create_or_update_file R s path content message = .error exc) ∧
    (∀ url s', create_or_update_file R s path content message = .ok (url, s') →
      url = html_url_for path) ∧
    (get_file_content R s path = .ok none ↔
      ∃ exc, R.get_contents s path = .error exc ∧ exc.status = 404) ∧
    (∀ fc, R.get_contents s path = .ok fc →
      get_file_content R s path = .ok (some fc.content)) ∧
    (∀ exc, R.get_contents s path = .error exc → exc.status ≠ 404 →
      get_file_content R s path = .error exc) := by
  refine ⟨?_, ?_, ?_, ?_, ?_, ?_, ?_⟩
  · intro fc h
    simp [create_or_update_file, h]
  · intro exc h h404
    simp [create_or_update_file, h, h404]
  · intro exc h h404
    simp [create_or_update_file, h, h404]
  · intro url s' h
    cases hg : R.get_contents s path with
    | ok fc =>
        have h1 : create_or_update_file R s path content message =
            (R.update_file s path message content fc.sha "main").map
              (fun s' => (html_url_for path, s')) := by
          simp [create_or_update_file, hg]
        rw [h1] at h
        cases hu : R.update_file s path message content fc.sha "main" with
        | ok s2 => rw [hu] at h; simp [Except.map] at h; exact h.1.symm
        | error e => rw [hu] at h; simp [Except.map] at h
    | error exc =>
        by_cases h404 : exc.status = 404
        · have h1 : create_or_update_file R s path content message =
              (R.create_file s path message content "main").map
                (fun s' => (html_url_for path, s')) := by
            simp [create_or_update_file, hg, h404]
          rw [h1] at h
          cases hc : R.create_file s path message content "main" with
          | ok s2 => rw [hc] at h; simp [Except.map] at h; exact h.1.symm
          | error e => rw [hc] at h; simp [Except.map] at h
        · have h1 : create_or_update_file R s path content message =
              .error exc := by
            simp [create_or_update_file, hg, h404]
          rw [h1] at h
          exact absurd h (by simp)
  · constructor
    · intro h
      cases hg : R.get_contents s path with
      | ok fc =>
          have h1 : get_file_content R s path = .ok (some fc.content) := by
            simp [get_file_content, hg]
          rw [h1] at h
          simp at h
      | error exc =>
          by_cases h404 : exc.status = 404
          · exact ⟨exc, rfl, h404⟩
          · have h1 : get_file_content R s path = .error exc := by
              simp [get_file_content, hg, h404]
            rw [h1] at h
            simp at h
    · rintro ⟨exc, hg, h404⟩
      simp [get_file_content, hg, h404]
  · intro fc h
    simp [get_file_content, h]
  · intro exc h h404
    simp [get_file_content, h, h404]

/-- Witness for C1: on a concrete store holding `notes/a.md`, the read
returns that file's content, an upsert of a present path updates it in
place, an upsert of an absent path creates it, an injected non-404 failure
propagates, and both upserts return the browsable URL. -/
theorem upsert_and_read_contract_witness :
    create_or_update_file ghStore ⟨[("notes/a.md", "old")], [], []⟩
        "notes/a.md" "new" "msg" =
      .ok ("https://github.com/pdawson1983/dawson-pkb/blob/main/notes/a.md",
        ⟨[("notes/a.md", "new")], [], []⟩) ∧
    create_or_update_file ghStore ⟨[("notes/a.md", "old")], [], []⟩
        "notes/b.md" "fresh" "msg" =
      .ok ("https://github.com/pdawson1983/dawson-pkb/blob/main/notes/b.md",
        ⟨[("notes/b.md", "fresh"), ("notes/a.md", "old")], [], []⟩) ∧
    create_or_update_file ghStore
        ⟨[], [("notes/a.md", ⟨403, "Forbidden"⟩)], []⟩
        "notes/a.md" "new" "msg" = .error ⟨403, "Forbidden"⟩ ∧
    get_file_content ghStore ⟨[("notes/a.md", "old")], [], []⟩ "notes/a.md" =
      .ok (some "old") ∧
    get_file_content ghStore ⟨[("notes/a.md", "old")], [], []⟩ "notes/b.md" =
      .ok none := by
  refine ⟨?_, ?_, ?_, ?_, ?_⟩
  · rw [(upsert_and_read_contract ghStore ⟨[("notes/a.md", "old")], [], []⟩
        "notes/a.md" "new" "msg").1 ⟨"old", "old"⟩ (by
          simp [ghStore, gh_get_contents, assoc_find])]
    simp [ghStore, gh_update_file, assoc_find, set_file, Except.map,
      html_url_for, GITHUB_REPO]
  · rw [(upsert_and_read_contract ghStore ⟨[("notes/a.md", "old")], [], []⟩
        "notes/b.md" "fresh" "msg").2.1 ⟨404, "Not Found"⟩ (by
          simp [ghStore, gh_get_contents, assoc_find]) rfl]
    simp [ghStore, gh_create_file, assoc_find, set_file, Except.map,
      html_url_for, GITHUB_REPO]
  · exact (upsert_and_read_contract ghStore
      ⟨[], [("notes/a.md", ⟨403, "Forbidden"⟩)], []⟩
      "notes/a.md" "new" "msg").2.2.1 ⟨403, "Forbidden"⟩ (by
        simp [ghStore, gh_get_contents, assoc_find]) (by decide)
  · exact (upsert_and_read_contract ghStore ⟨[("notes/a.md", "old")], [], []⟩
      "notes/a.md" "x" "y").2.2.2.2.2.1 ⟨"old", "old"⟩ (by
        simp [ghStore, gh_get_contents, assoc_find])
  · exact (upsert_and_read_contract ghStore ⟨[("notes/a.md", "old")], [], []⟩
      "notes/b.md" "x" "y").2.2.2.2.1.mpr ⟨⟨404, "Not Found"⟩, (by
        simp [ghStore, gh_get_contents, assoc_find]), rfl⟩

/-! ### Evaluation lemmas for the concrete store -/

lemma assoc_find_filter_ne {files : List (String × α)} {p q : String}
    (h : q ≠ p) :
    assoc_find (files.filter (fun kv => kv.1 ≠ p)) q = assoc_find files q := by
  induction files with
  | nil => rfl
  | cons kv rest ih =>
      by_cases hk : kv.1 = p
      · rw [List.filter_cons_of_neg (by simp [hk])]
        rw [assoc_find, if_neg (by rw [hk]; exact fun he => h he.symm), ih]
      · rw [List.filter_cons_of_pos (by simp [hk])]
        rw [assoc_find, assoc_find]
        by_cases he : kv.1 = q
        · rw [if_pos he, if_pos he]
        · rw [if_neg he, if_neg he, ih]

lemma assoc_find_set_file_self (files : List (String × String))
    (p c : String) : assoc_find (set_file files p c) p = some c := by
  simp [set_file, assoc_find]

lemma assoc_find_set_file_ne (files : List (String × String))
    {p q : String} (c : String) (h : q ≠ p) :
    assoc_find (set_file files p c) q = assoc_find files q := by
  rw [set_file, assoc_find, if_neg (fun he => h he.symm)]
  exact assoc_find_filter_ne h

lemma upsert_ghStore_ok (s : Store) (path content message : String)
    (hg : assoc_find s.failGets path = none)
    (hp : assoc_find s.failPuts path = none) :
    create_or_update_file ghStore s path content message =
      .ok (html_url_for path,
        { s with files := set_file s.files path content }) := by
  unfold create_or_update_file ghStore gh_get_contents
  simp only [hg]
  cases hf : assoc_find s.files path with
  | some cur => simp [gh_update_file, hp, hf, Except.map]
  | none => simp [gh_create_file, hp, hf, Except.map]

lemma upsert_ghStore_putfail (s : Store) (path content message : String)
    {e : GHExc} (hg : assoc_find s.failGets path = none)
    (hp : assoc_find s.failPuts path = some e) :
    create_or_update_file ghStore s path content message = .error e := by
  unfold create_or_update_file ghStore gh_get_contents
  simp only [hg]
  cases hf : assoc_find s.files path with
  | some cur => simp [gh_update_file, hp, hf, Except.map]
  | none => simp [gh_create_file, hp, hf, Except.map]

lemma get_file_content_ghStore (s : Store) (path : String)
    (hg : assoc_find s.failGets path = none) :
    get_file_content ghStore s path = .ok (assoc_find s.files path) := by
  unfold get_file_content ghStore gh_get_contents
  simp only [hg]
  cases hf : assoc_find s.files path with
  | some c => simp [hf]
  | none => simp [hf]

/-- The entry document `add_til` builds. -/
def til_full_content (date_str title content : String)
    (tags : List String) : String :=
  "---\n" ++ "title: \"" ++ title ++ "\"\n" ++ "date: " ++ date_str ++ "\n"
    ++ "tags: ["
    ++ (if tags.isEmpty then "" else String.intercalate ", " tags)
    ++ "]\n" ++ "---\n\n" ++ content ++ "\n"

/-- The index link line `add_til` appends. -/
def til_new_link (date_str title : String) : String :=
  "- [" ++ title ++ "](" ++ til_filename date_str title ++ ") ("
    ++ date_str ++ ")\n"

/-- The re-upserted index document, as a function of the index content the
read returned. -/
def til_updated_index (existing_index : Option String)
    (date_str title : String) : String :=
  match existing_index with
  | some idx => rstrip_nl idx ++ "\n" ++ til_new_link date_str title
  | none => "# TIL Index\n\n" ++ til_new_link date_str title

/-- The file map after `add_til` succeeds: the entry document at its path,
then the updated index at `til/index.md`. -/
def add_til_files (files : List (String × String))
    (date_str title content : String) (tags : List String) :
    List (String × String) :=
  set_file
    (set_file files (til_file_path date_str title)
      (til_full_content date_str title content tags))
    "til/index.md"
    (til_updated_index
      (assoc_find
        (set_file files (til_file_path date_str title)
          (til_full_content date_str title content tags))
        "til/index.md")
      date_str title)

lemma add_til_eval (s : Store) (date_str title content : String)
    (tags : List String)
    (hgE : assoc_find s.failGets (til_file_path date_str title) = none)
    (hpE : assoc_find s.failPuts (til_file_path date_str title) = none)
    (hgI : assoc_find s.failGets "til/index.md" = none)
    (hpI : assoc_find s.failPuts "til/index.md" = none) :
    add_til ghStore s date_str title content tags =
      ("TIL entry created: " ++ title ++ "\nURL: "
          ++ html_url_for (til_file_path date_str title),
        { s with files :=
            add_til_files s.files date_str title content tags }) := by
  have hgE' : assoc_find s.failGets ("til/" ++ til_filename date_str title)
      = none := hgE
  have hpE' : assoc_find s.failPuts ("til/" ++ til_filename date_str title)
      = none := hpE
  simp only [add_til]
  rw [upsert_ghStore_ok s _ _ _ hgE' hpE']
  simp only []
  have h1 : assoc_find
      (Store.mk
        (set_file s.files ("til/" ++ til_filename date_str title)
          ("---\n" ++ "title: \"" ++ title ++ "\"\n" ++ "date: " ++ date_str
            ++ "\n" ++ "tags: ["
            ++ (if tags.isEmpty then "" else String.intercalate ", " tags)
            ++ "]\n" ++ "---\n\n" ++ content ++ "\n"))
        s.failGets s.failPuts).failGets "til/index.md" = none := hgI
  rw [get_file_content_ghStore _ _ h1]
  simp only []
  cases hf : assoc_find
      (set_file s.files ("til/" ++ til_filename date_str title)
        ("---\n" ++ "title: \"" ++ title ++ "\"\n" ++ "date: " ++ date_str
          ++ "\n" ++ "tags: ["
          ++ (if tags.isEmpty then "" else String.intercalate ", " tags)
          ++ "]\n" ++ "---\n\n" ++ content ++ "\n"))
      "til/index.md" with
  | some idx =>
      simp only [hf]
      simp only [upsert_ghStore_ok, hgI, hpI]
      simp only [add_til_files, til_updated_index, til_full_content,
        til_file_path, til_new_link, til_filename]
      simp [til_filename] at hf
      simp [hf]
  | none =>
      simp only [hf]
      simp only [upsert_ghStore_ok, hgI, hpI]
      simp only [add_til_files, til_updated_index, til_full_content,
        til_file_path, til_new_link, til_filename]
      simp [til_filename] at hf
      simp [hf]

/-- The prompt document `add_prompt` builds. -/
def prompt_full_content
    (date_str name category_lower content description : String) : String :=
  "---\n" ++ "name: \"" ++ name ++ "\"\n"
    ++ "category: " ++ category_lower ++ "\n"
    ++ "description: \"" ++ description ++ "\"\n"
    ++ "date: " ++ date_str ++ "\n" ++ "---\n\n" ++ content ++ "\n"

/-- The pattern document `add_pattern` builds. -/
def pattern_full_content (date_str name category_lower problem solution : String)
    (tags : List String) : String :=
  "---\n" ++ "name: \"" ++ name ++ "\"\n"
    ++ "category: " ++ category_lower ++ "\n"
    ++ "date: " ++ date_str ++ "\n"
    ++ "tags: ["
    ++ (if tags.isEmpty then "" else String.intercalate ", " tags)
    ++ "]\n" ++ "---\n\n"
    ++ "## Problem\n\n" ++ problem ++ "\n\n"
    ++ "## Solution\n\n" ++ solution ++ "\n"

lemma add_prompt_invalid (R : RemoteRepo σ) (s : σ)
    (date_str name category content description : String)
    (hinv : VALID_PROMPT_CATEGORIES.contains (py_strip (py_lower category))
      = false) :
    add_prompt R s date_str name category content description =
      ("Invalid category '" ++ category ++ "'. " ++ "Must be one of: " ++
        String.intercalate ", " (sorted_strings VALID_PROMPT_CATEGORIES), s) := by
  have hb : (!(VALID_PROMPT_CATEGORIES.contains
      (py_strip (py_lower category)))) = true := by rw [hinv]; rfl
  simp only [add_prompt, hb, if_true]

lemma add_pattern_invalid (R : RemoteRepo σ) (s : σ)
    (date_str name category problem solution : String) (tags : List String)
    (hinv : VALID_PATTERN_CATEGORIES.contains (py_strip (py_lower category))
      = false) :
    add_pattern R s date_str name category problem solution tags =
      ("Invalid category '" ++ category ++ "'. " ++ "Must be one of: " ++
        String.intercalate ", " (sorted_strings VALID_PATTERN_CATEGORIES), s) := by
  have hb : (!(VALID_PATTERN_CATEGORIES.contains
      (py_strip (py_lower category)))) = true := by rw [hinv]; rfl
  simp only [add_pattern, hb, if_true]

/-- The file map after `add_prompt` succeeds. -/
def add_prompt_files (files : List (String × String))
    (date_str name category content description : String) :
    List (String × String) :=
  set_file files (prompt_file_path (py_strip (py_lower category)) name)
    (prompt_full_content date_str name (py_strip (py_lower category))
      content description)

/-- The file map after `add_pattern` succeeds. -/
def add_pattern_files (files : List (String × String))
    (date_str name category problem solution : String) (tags : List String) :
    List (String × String) :=
  set_file files (pattern_file_path (py_strip (py_lower category)) name)
    (pattern_full_content date_str name (py_strip (py_lower category))
      problem solution tags)

lemma add_prompt_eval (s : Store)
    (date_str name category content description : String)
    (hv : VALID_PROMPT_CATEGORIES.contains (py_strip (py_lower category))
      = true)
    (hg : assoc_find s.failGets
      (prompt_file_path (py_strip (py_lower category)) name) = none)
    (hp : assoc_find s.failPuts
      (prompt_file_path (py_strip (py_lower category)) name) = none) :
    add_prompt ghStore s date_str name category content description =
      ("Prompt saved: " ++ name ++ " [" ++ py_strip (py_lower category)
          ++ "]\nURL: "
          ++ html_url_for (prompt_file_path (py_strip (py_lower category)) name),
        { s with files :=
            add_prompt_files s.files date_str name category content description }) := by
  have hb : (!(VALID_PROMPT_CATEGORIES.contains
      (py_strip (py_lower category)))) = false := by rw [hv]; rfl
  simp only [add_prompt, hb, Bool.false_eq_true, if_false]
  rw [upsert_ghStore_ok s _ _ _ hg hp]
  simp [add_prompt_files, prompt_full_content]

lemma add_pattern_eval (s : Store)
    (date_str name category problem solution : String) (tags : List String)
    (hv : VALID_PATTERN_CATEGORIES.contains (py_strip (py_lower category))
      = true)
    (hg : assoc_find s.failGets
      (pattern_file_path (py_strip (py_lower category)) name) = none)
    (hp : assoc_find s.failPuts
      (pattern_file_path (py_strip (py_lower category)) name) = none) :
    add_pattern ghStore s date_str name category problem solution tags =
      ("Pattern documented: " ++ name ++ " [" ++ py_strip (py_lower category)
          ++ "]\nURL: "
          ++ html_url_for (pattern_file_path (py_strip (py_lower category)) name),
        { s with files :=
            add_pattern_files s.files date_str name category problem solution tags }) := by
  have hb : (!(VALID_PATTERN_CATEGORIES.contains
      (py_strip (py_lower category)))) = false := by rw [hv]; rfl
  simp only [add_pattern, hb, Bool.false_eq_true, if_false]
  rw [upsert_ghStore_ok s _ _ _ hg hp]
  simp [add_pattern_files, pattern_full_content, String.append_assoc]
  rw [show ("]\n---\n\n## Problem\n\n" : String)
      = "]\n---\n\n" ++ "## Problem\n\n" from rfl,
    String.append_assoc]

/-! ### Claim theorems: validation and document formats -/

/-- C5: `add_prompt` and `add_pattern` lowercase and strip the category
before checking membership in the closed set; a value outside the set makes
the handler return, before any remote call (for every remote `R` and state
`t`, which are left untouched), an error listing the valid categories in
sorted order; a value whose lowercased, stripped form is in the set is
accepted and the normalized form is used in the success message. -/
theorem category_validation {σ : Type} (R : RemoteRepo σ) (t : σ) (s : Store)
    (date_str name category content description problem solution : String)
    (tags : List String) :
    (VALID_PROMPT_CATEGORIES.contains (py_strip (py_lower category)) = false →
      add_prompt R t date_str name category content description =
        ("Invalid category '" ++ category
          ++ "'. Must be one of: coding, documentation, general, infrastructure",
          t)) ∧
    (VALID_PATTERN_CATEGORIES.contains (py_strip (py_lower category)) = false →
      add_pattern R t date_str name category problem solution tags =
        ("Invalid category '" ++ category
          ++ "'. Must be one of: agent, cloud, devops", t)) ∧
    (VALID_PROMPT_CATEGORIES.contains (py_strip (py_lower category)) = true →
      assoc_find s.failGets
          (prompt_file_path (py_strip (py_lower category)) name) = none →
      assoc_find s.failPuts
          (prompt_file_path (py_strip (py_lower category)) name) = none →
      (add_prompt ghStore s date_str name category content description).1 =
        "Prompt saved: " ++ name ++ " [" ++ py_strip (py_lower category)
          ++ "]\nURL: "
          ++ html_url_for
            (prompt_file_path (py_strip (py_lower category)) name)) ∧
    (VALID_PATTERN_CATEGORIES.contains (py_strip (py_lower category)) = true →
      assoc_find s.failGets
          (pattern_file_path (py_strip (py_lower category)) name) = none →
      assoc_find s.failPuts
          (pattern_file_path (py_strip (py_lower category)) name) = none →
      (add_pattern ghStore s date_str name category problem solution tags).1 =
        "Pattern documented: " ++ name ++ " [" ++ py_strip (py_lower category)
          ++ "]\nURL: "
          ++ html_url_for
            (pattern_file_path (py_strip (py_lower category)) name)) := by
  refine ⟨?_, ?_, ?_, ?_⟩
  · intro hinv
    rw [add_prompt_invalid R t date_str name category content description hinv]
    have hj : String.intercalate ", " (sorted_strings VALID_PROMPT_CATEGORIES)
        = "coding, documentation, general, infrastructure" := rfl
    rw [hj]
    simp [String.append_assoc]
  · intro hinv
    rw [add_pattern_invalid R t date_str name category problem solution tags
      hinv]
    have hj : String.intercalate ", " (sorted_strings VALID_PATTERN_CATEGORIES)
        = "agent, cloud, devops" := rfl
    rw [hj]
    simp [String.append_assoc]
  · intro hv hg hp
    rw [add_prompt_eval s date_str name category content description hv hg hp]
  · intro hv hg hp
    rw [add_pattern_eval s date_str name category problem solution tags
      hv hg hp]

/-- Witness for C5: `"css"` is rejected by `add_prompt` with the sorted list
of valid categories and an unchanged store; `"DevOps"` (mixed case) is
accepted by `add_pattern` and normalized to `devops`. -/
theorem category_validation_witness :
    add_prompt ghStore ⟨[], [], []⟩ "2024-01-15" "n" "css" "c" "d" =
      ("Invalid category 'css'. Must be one of: coding, documentation, general, infrastructure",
        ⟨[], [], []⟩) ∧
    (add_pattern ghStore ⟨[], [], []⟩ "2024-01-15" "Retry with Backoff"
        "DevOps" "p" "sol" []).1 =
      "Pattern documented: Retry with Backoff [devops]\nURL: "
        ++ html_url_for (pattern_file_path "devops" "Retry with Backoff") := by
  constructor
  · exact (category_validation ghStore ⟨[], [], []⟩ ⟨[], [], []⟩
      "2024-01-15" "n" "css" "c" "d" "p" "sol" []).1 (by decide)
  · have h := (category_validation ghStore (⟨[], [], []⟩ : Store)
      (⟨[], [], []⟩ : Store) "2024-01-15" "Retry with Backoff" "DevOps"
      "c" "d" "p" "sol" []).2.2.2 (by decide) rfl rfl
    have hcl : py_strip (py_lower "DevOps") = "devops" := by decide
    rw [hcl] at h
    exact h

/-- C8: for every name, valid category, problem, solution and tags, the
document `add_pattern` stores consists of a front-matter block with the keys
in the order name, category, date, tags — the tag list rendered
comma-space-joined, an empty list as `tags: []` — followed, after blank
lines, by exactly the two headed subsections `## Problem` then
`## Solution`. -/
theorem pattern_document_format (s : Store)
    (date_str name category problem solution : String) (tags : List String)
    (hv : VALID_PATTERN_CATEGORIES.contains (py_strip (py_lower category))
      = true)
    (hg : assoc_find s.failGets
      (pattern_file_path (py_strip (py_lower category)) name) = none)
    (hp : assoc_find s.failPuts
      (pattern_file_path (py_strip (py_lower category)) name) = none) :
    assoc_find
        (add_pattern ghStore s date_str name category problem solution
          tags).2.files
        (pattern_file_path (py_strip (py_lower category)) name) =
      some ("---\n"
        ++ "name: \"" ++ name ++ "\"\n"
        ++ "category: " ++ py_strip (py_lower category) ++ "\n"
        ++ "date: " ++ date_str ++ "\n"
        ++ "tags: ["
        ++ (if tags.isEmpty then "" else String.intercalate ", " tags)
        ++ "]\n"
        ++ "---\n\n"
        ++ "## Problem\n\n" ++ problem ++ "\n\n"
        ++ "## Solution\n\n" ++ solution ++ "\n") := by
  rw [add_pattern_eval s date_str name category problem solution tags
    hv hg hp]
  simp [add_pattern_files, assoc_find_set_file_self, pattern_full_content,
    String.append_assoc]

/-- Witness for C8, on the spec's scenario: the stored document for
`add_pattern(name="Retry with Backoff", category="DevOps", tags=[])`. -/
theorem pattern_document_format_witness :
    assoc_find
        (add_pattern ghStore ⟨[], [], []⟩ "2024-01-15" "Retry with Backoff"
          "DevOps" "p" "sol" []).2.files
        "patterns/devops/retry-with-backoff.md" =
      some "---\nname: \"Retry with Backoff\"\ncategory: devops\ndate: 2024-01-15\ntags: []\n---\n\n## Problem\n\np\n\n## Solution\n\nsol\n" := by
  have h := pattern_document_format ⟨[], [], []⟩ "2024-01-15"
    "Retry with Backoff" "DevOps" "p" "sol" [] (by decide) rfl rfl
  have hcl : py_strip (py_lower "DevOps") = "devops" := by decide
  rw [hcl] at h
  have hpath : pattern_file_path "devops" "Retry with Backoff"
      = "patterns/devops/retry-with-backoff.md" := by
    simp [pattern_file_path, slugify, slug_runs, join_dash]
  rw [hpath] at h
  rw [h]
  simp

/-- C3: the TIL index update.  When the index exists with content `idx`, the
document re-upserted at the fixed path `til/index.md` is exactly `idx` with
trailing newlines stripped, one trailing newline restored, then the single
line `- [{title}]({filename}) ({date})`; when the index is absent it is the
one-line heading `# TIL Index`, a blank line, then the new line.  Prior
content is preserved verbatim as a prefix, so no existing line is dropped or
reordered. -/
theorem til_index_update (s : Store) (date_str title content : String)
    (tags : List String)
    (hne : til_file_path date_str title ≠ "til/index.md")
    (hgE : assoc_find s.failGets (til_file_path date_str title) = none)
    (hpE : assoc_find s.failPuts (til_file_path date_str title) = none)
    (hgI : assoc_find s.failGets "til/index.md" = none)
    (hpI : assoc_find s.failPuts "til/index.md" = none) :
    (∀ idx, assoc_find s.files "til/index.md" = some idx →
      assoc_find (add_til ghStore s date_str title content tags).2.files
          "til/index.md" =
        some (rstrip_nl idx ++ "\n"
          ++ ("- [" ++ title ++ "](" ++ til_filename date_str title ++ ") ("
              ++ date_str ++ ")\n"))) ∧
    (assoc_find s.files "til/index.md" = none →
      assoc_find (add_til ghStore s date_str title content tags).2.files
          "til/index.md" =
        some ("# TIL Index\n\n"
          ++ ("- [" ++ title ++ "](" ++ til_filename date_str title ++ ") ("
              ++ date_str ++ ")\n"))) := by
  rw [add_til_eval s date_str title content tags hgE hpE hgI hpI]
  constructor
  · intro idx hidx
    simp only [add_til_files, assoc_find_set_file_self]
    rw [assoc_find_set_file_ne _ _ (Ne.symm hne), hidx]
    simp [til_updated_index, til_new_link]
  · intro hidx
    simp only [add_til_files, assoc_find_set_file_self]
    rw [assoc_find_set_file_ne _ _ (Ne.symm hne), hidx]
    simp [til_updated_index, til_new_link]

/-- Witness for C3, on the spec's scenario: appending
`- [Learned Recursion](2024-01-15-learned-recursion.md) (2024-01-15)` to an
existing index, preserving the prior line. -/
theorem til_index_update_witness :
    assoc_find
        (add_til ghStore
          ⟨[("til/index.md", "# TIL Index\n\n- [Old](old.md) (2024-01-01)\n")],
            [], []⟩
          "2024-01-15" "Learned Recursion" "body" ["python", "algorithms"]).2.files
        "til/index.md" =
      some "# TIL Index\n\n- [Old](old.md) (2024-01-01)\n- [Learned Recursion](2024-01-15-learned-recursion.md) (2024-01-15)\n" := by
  have hne : til_file_path "2024-01-15" "Learned Recursion" ≠ "til/index.md" := by
    simp [til_file_path, til_filename, slugify, slug_runs, join_dash]
  have h := (til_index_update
    ⟨[("til/index.md", "# TIL Index\n\n- [Old](old.md) (2024-01-01)\n")],
      [], []⟩
    "2024-01-15" "Learned Recursion" "body" ["python", "algorithms"]
    hne rfl rfl rfl rfl).1
    "# TIL Index\n\n- [Old](old.md) (2024-01-01)\n" (by simp [assoc_find])
  rw [h]
  have hfn : til_filename "2024-01-15" "Learned Recursion"
      = "2024-01-15-learned-recursion.md" := by
    simp [til_filename, slugify, slug_runs, join_dash]
  rw [hfn]
  have hrs : rstrip_nl "# TIL Index\n\n- [Old](old.md) (2024-01-01)\n"
      = "# TIL Index\n\n- [Old](old.md) (2024-01-01)" := by
    simp [rstrip_nl]
  rw [hrs]
  simp

lemma ne_of_data_head_ne {a b : String} (h : a.data.head? ≠ b.data.head?) :
    a ≠ b := fun he => h (by rw [he])

lemma upsert_ghStore_putfail_getD (s : Store) (path content message : String)
    (hg : assoc_find s.failGets path = none)
    (hp : (assoc_find s.failPuts path).isSome = true) :
    create_or_update_file ghStore s path content message =
      .error ((assoc_find s.failPuts path).getD (GHExc.mk 0 "")) := by
  obtain ⟨e, he⟩ := Option.isSome_iff_exists.mp hp
  rw [upsert_ghStore_putfail s path content message hg he, he]
  rfl

/-- The file map after the entry write of `add_til` alone. -/
def til_entry_files (files : List (String × String))
    (date_str title content : String) (tags : List String) :
    List (String × String) :=
  set_file files (til_file_path date_str title)
    (til_full_content date_str title content tags)

/-- C4: if the index upsert fails after the entry file was written, `add_til`
returns the GitHub error string — never the success string — while the entry
file's write persists in the store (no rollback). -/
theorem add_til_index_failure (s : Store) (date_str title content : String)
    (tags : List String) (e : GHExc)
    (hgE : assoc_find s.failGets (til_file_path date_str title) = none)
    (hpE : assoc_find s.failPuts (til_file_path date_str title) = none)
    (hgI : assoc_find s.failGets "til/index.md" = none)
    (hpI : assoc_find s.failPuts "til/index.md" = some e) :
    (add_til ghStore s date_str title content tags).1 =
        "GitHub API error while adding TIL: " ++ e.msg ∧
    (∀ url, (add_til ghStore s date_str title content tags).1 ≠
        "TIL entry created: " ++ title ++ "\nURL: " ++ url) ∧
    assoc_find (add_til ghStore s date_str title content tags).2.files
        (til_file_path date_str title) =
      some (til_full_content date_str title content tags) := by
  have hgE' : assoc_find s.failGets ("til/" ++ til_filename date_str title)
      = none := hgE
  have hpE' : assoc_find s.failPuts ("til/" ++ til_filename date_str title)
      = none := hpE
  have heval : add_til ghStore s date_str title content tags =
      ("GitHub API error while adding TIL: " ++ e.msg,
        { s with files :=
            til_entry_files s.files date_str title content tags }) := by
    simp only [add_til]
    rw [upsert_ghStore_ok s _ _ _ hgE' hpE']
    simp only []
    have h1 : assoc_find
        (Store.mk
          (set_file s.files ("til/" ++ til_filename date_str title)
            ("---\n" ++ "title: \"" ++ title ++ "\"\n" ++ "date: " ++ date_str
              ++ "\n" ++ "tags: ["
              ++ (if tags.isEmpty then "" else String.intercalate ", " tags)
              ++ "]\n" ++ "---\n\n" ++ content ++ "\n"))
          s.failGets s.failPuts).failGets "til/index.md" = none := hgI
    rw [get_file_content_ghStore _ _ h1]
    simp only []
    cases hf : assoc_find
        (set_file s.files ("til/" ++ til_filename date_str title)
          ("---\n" ++ "title: \"" ++ title ++ "\"\n" ++ "date: " ++ date_str
            ++ "\n" ++ "tags: ["
            ++ (if tags.isEmpty then "" else String.intercalate ", " tags)
            ++ "]\n" ++ "---\n\n" ++ content ++ "\n"))
        "til/index.md" with
    | some idx =>
        simp only [hf]
        simp only [upsert_ghStore_putfail_getD, hgI, hpI, Option.isSome_some,
          Option.getD_some]
        simp [til_entry_files, til_full_content, til_file_path,
          til_filename, String.append_assoc]
    | none =>
        simp only [hf]
        simp only [upsert_ghStore_putfail_getD, hgI, hpI, Option.isSome_some,
          Option.getD_some]
        simp [til_entry_files, til_full_content, til_file_path,
          til_filename, String.append_assoc]
  refine ⟨by rw [heval], ?_, ?_⟩
  · intro url
    rw [heval]
    apply ne_of_data_head_ne
    rw [String.data_append, List.head?_append]
    rw [String.data_append, String.data_append, List.head?_append]
    intro hcon
    exact absurd hcon (by simp [String.data])
  · rw [heval]
    exact assoc_find_set_file_self _ _ _


/-- Witness for C4: with an injected write failure on `til/index.md`, the
call reports the GitHub error, yet the entry file persists in the store. -/
theorem add_til_index_failure_witness :
    (add_til ghStore
        ⟨[], [], [("til/index.md", ⟨500, "Internal Server Error"⟩)]⟩
        "2024-01-15" "Learned Recursion" "body" []).1 =
      "GitHub API error while adding TIL: Internal Server Error" ∧
    assoc_find
        (add_til ghStore
          ⟨[], [], [("til/index.md", ⟨500, "Internal Server Error"⟩)]⟩
          "2024-01-15" "Learned Recursion" "body" []).2.files
        "til/2024-01-15-learned-recursion.md" =
      some "---\ntitle: \"Learned Recursion\"\ndate: 2024-01-15\ntags: []\n---\n\nbody\n" := by
  have hpath : til_file_path "2024-01-15" "Learned Recursion"
      = "til/2024-01-15-learned-recursion.md" := by
    simp [til_file_path, til_filename, slugify, slug_runs, join_dash]
  have h := add_til_index_failure
    ⟨[], [], [("til/index.md", ⟨500, "Internal Server Error"⟩)]⟩
    "2024-01-15" "Learned Recursion" "body" []
    ⟨500, "Internal Server Error"⟩
    rfl (by rw [hpath]; simp [assoc_find]) rfl (by simp [assoc_find])
  refine ⟨h.1, ?_⟩
  have h3 := h.2.2
  rw [hpath] at h3
  rw [h3]
  simp [til_full_content]

lemma rstrip_nl_append_paren (x : String) :
    rstrip_nl (x ++ ")\n") = x ++ ")" := by
  apply String.ext
  show ((x ++ ")\n").data.reverse.dropWhile (fun c => c = '\n')).reverse
      = (x ++ ")").data
  rw [String.data_append, String.data_append]
  rw [show (")\n" : String).data = [')', '\n'] from rfl,
    show (")" : String).data = [')'] from rfl]
  rw [List.reverse_append]
  simp only [List.reverse_cons, List.reverse_nil, List.nil_append,
    List.cons_append, List.dropWhile_cons]
  rw [if_pos (by decide), if_neg (by decide)]
  rw [List.reverse_cons, List.reverse_reverse]

lemma rstrip_nl_append_link (A date_str title : String) :
    rstrip_nl (A ++ til_new_link date_str title) ++ "\n"
        ++ til_new_link date_str title =
      A ++ til_new_link date_str title ++ til_new_link date_str title := by
  have h : A ++ til_new_link date_str title
      = (A ++ ("- [" ++ title ++ "](" ++ til_filename date_str title
          ++ ") (" ++ date_str)) ++ ")\n" := by
    simp [til_new_link, String.append_assoc]
  rw [h, rstrip_nl_append_paren]
  have h2 : (")" : String) ++ "\n" = ")\n" := rfl
  simp only [String.append_assoc, h2]

/-- C10: calling `add_til` twice with identical inputs on the same date
overwrites the same entry file with byte-identical content, but each call
appends one more copy of the same link line to `til/index.md`: the index
after the second call is the index after the first call with the link line
appended again, so `add_til` is not idempotent with respect to the index. -/
theorem add_til_twice (s : Store) (date_str title content : String)
    (tags : List String)
    (hne : til_file_path date_str title ≠ "til/index.md")
    (hgE : assoc_find s.failGets (til_file_path date_str title) = none)
    (hpE : assoc_find s.failPuts (til_file_path date_str title) = none)
    (hgI : assoc_find s.failGets "til/index.md" = none)
    (hpI : assoc_find s.failPuts "til/index.md" = none) :
    assoc_find (add_til ghStore s date_str title content tags).2.files
        (til_file_path date_str title) =
      some (til_full_content date_str title content tags) ∧
    assoc_find
        (add_til ghStore (add_til ghStore s date_str title content tags).2
          date_str title content tags).2.files
        (til_file_path date_str title) =
      some (til_full_content date_str title content tags) ∧
    assoc_find (add_til ghStore s date_str title content tags).2.files
        "til/index.md" =
      some (til_updated_index (assoc_find s.files "til/index.md")
        date_str title) ∧
    assoc_find
        (add_til ghStore (add_til ghStore s date_str title content tags).2
          date_str title content tags).2.files
        "til/index.md" =
      some (til_updated_index (assoc_find s.files "til/index.md")
          date_str title
        ++ til_new_link date_str title) ∧
    assoc_find
        (add_til ghStore (add_til ghStore s date_str title content tags).2
          date_str title content tags).2.files
        "til/index.md" ≠
      assoc_find (add_til ghStore s date_str title content tags).2.files
        "til/index.md" := by
  have e1 := add_til_eval s date_str title content tags hgE hpE hgI hpI
  have e2 := add_til_eval
    (Store.mk (add_til_files s.files date_str title content tags)
      s.failGets s.failPuts)
    date_str title content tags hgE hpE hgI hpI
  have hA : assoc_find (add_til_files s.files date_str title content tags)
      (til_file_path date_str title) =
      some (til_full_content date_str title content tags) := by
    rw [add_til_files, assoc_find_set_file_ne _ _ hne,
      assoc_find_set_file_self]
  have hI1 : assoc_find (add_til_files s.files date_str title content tags)
      "til/index.md" =
      some (til_updated_index (assoc_find s.files "til/index.md")
        date_str title) := by
    rw [add_til_files, assoc_find_set_file_self,
      assoc_find_set_file_ne _ _ (Ne.symm hne)]
  have hA2 : assoc_find
      (add_til_files (add_til_files s.files date_str title content tags)
        date_str title content tags)
      (til_file_path date_str title) =
      some (til_full_content date_str title content tags) := by
    rw [add_til_files, assoc_find_set_file_ne _ _ hne,
      assoc_find_set_file_self]
  have hI2 : assoc_find
      (add_til_files (add_til_files s.files date_str title content tags)
        date_str title content tags)
      "til/index.md" =
      some (til_updated_index (assoc_find s.files "til/index.md")
          date_str title
        ++ til_new_link date_str title) := by
    rw [add_til_files, assoc_find_set_file_self,
      assoc_find_set_file_ne _ _ (Ne.symm hne), hI1]
    cases h0 : assoc_find s.files "til/index.md" with
    | some idx =>
        simp only [til_updated_index]
        rw [rstrip_nl_append_link]
    | none =>
        simp only [til_updated_index]
        rw [rstrip_nl_append_link]
  have hlink : 0 < (til_new_link date_str title).length := by
    rw [til_new_link]
    simp [String.length_append]
    have h3 : 0 < "- [".length := by decide
    exact Or.inl (Or.inl (Or.inl (Or.inl (Or.inl (Or.inl h3)))))
  refine ⟨?_, ?_, ?_, ?_, ?_⟩
  · simp only [e1]
    exact hA
  · simp only [e1, e2]
    exact hA2
  · simp only [e1]
    exact hI1
  · simp only [e1, e2]
    exact hI2
  · simp only [e1, e2]
    rw [hI1, hI2]
    intro hcon
    have hcon2 := Option.some.inj hcon
    have hlen := congrArg String.length hcon2
    rw [String.length_append] at hlen
    omega

/-- Witness for C10: from an empty store, two identical `add_til` calls
leave one entry file but two copies of the link line in the index. -/
theorem add_til_twice_witness :
    assoc_find
        (add_til ghStore
          (add_til ghStore ⟨[], [], []⟩ "2024-01-15" "Learned Recursion"
            "body" []).2
          "2024-01-15" "Learned Recursion" "body" []).2.files
        "til/2024-01-15-learned-recursion.md" =
      some "---\ntitle: \"Learned Recursion\"\ndate: 2024-01-15\ntags: []\n---\n\nbody\n" ∧
    assoc_find
        (add_til ghStore
          (add_til ghStore ⟨[], [], []⟩ "2024-01-15" "Learned Recursion"
            "body" []).2
          "2024-01-15" "Learned Recursion" "body" []).2.files
        "til/index.md" =
      some "# TIL Index\n\n- [Learned Recursion](2024-01-15-learned-recursion.md) (2024-01-15)\n- [Learned Recursion](2024-01-15-learned-recursion.md) (2024-01-15)\n" := by
  have hpath : til_file_path "2024-01-15" "Learned Recursion"
      = "til/2024-01-15-learned-recursion.md" := by
    simp [til_file_path, til_filename, slugify, slug_runs, join_dash]
  have h := add_til_twice ⟨[], [], []⟩ "2024-01-15" "Learned Recursion"
    "body" [] (by rw [hpath]; decide) rfl rfl rfl rfl
  constructor
  · have h2 := h.2.1
    rw [hpath] at h2
    rw [h2]
    simp [til_full_content]
  · have h4 := h.2.2.2.1
    rw [h4]
    have hfn : til_filename "2024-01-15" "Learned Recursion"
        = "2024-01-15-learned-recursion.md" := by
      simp [til_filename, slugify, slug_runs, join_dash]
    simp [til_updated_index, til_new_link, hfn, assoc_find]

/-- C2: storage paths are pure functions of (section, category, name, date):
`add_til` stores its entry at `til/{date}-{slugify(title)}.md`, `add_prompt`
(valid category) at `ai/prompts/{category}/{slugify(name)}.md`, `add_pattern`
(valid category) at `patterns/{category}/{slugify(name)}.md`, and a second
identical `add_til` call on the same date stores at the identical path. -/
theorem storage_path_pure (s : Store)
    (date_str title name category content description problem solution :
      String)
    (tags : List String)
    (hne : til_file_path date_str title ≠ "til/index.md")
    (hfg : s.failGets = []) (hfp : s.failPuts = []) :
    til_file_path date_str title
      = "til/" ++ date_str ++ "-" ++ slugify title ++ ".md" ∧
    assoc_find (add_til ghStore s date_str title content tags).2.files
        ("til/" ++ date_str ++ "-" ++ slugify title ++ ".md")
      = some (til_full_content date_str title content tags) ∧
    (VALID_PROMPT_CATEGORIES.contains (py_strip (py_lower category)) = true →
      assoc_find
          (add_prompt ghStore s date_str name category content
            description).2.files
          ("ai/prompts/" ++ py_strip (py_lower category) ++ "/"
            ++ slugify name ++ ".md")
        = some (prompt_full_content date_str name
            (py_strip (py_lower category)) content description)) ∧
    (VALID_PATTERN_CATEGORIES.contains (py_strip (py_lower category)) = true →
      assoc_find
          (add_pattern ghStore s date_str name category problem solution
            tags).2.files
          ("patterns/" ++ py_strip (py_lower category) ++ "/"
            ++ slugify name ++ ".md")
        = some (pattern_full_content date_str name
            (py_strip (py_lower category)) problem solution tags)) ∧
    assoc_find
        (add_til ghStore (add_til ghStore s date_str title content tags).2
          date_str title content tags).2.files
        ("til/" ++ date_str ++ "-" ++ slugify title ++ ".md")
      = some (til_full_content date_str title content tags) := by
  have hg_any : ∀ p, assoc_find s.failGets p = none := by
    intro p; rw [hfg]; rfl
  have hp_any : ∀ p, assoc_find s.failPuts p = none := by
    intro p; rw [hfp]; rfl
  have hpath : "til/" ++ date_str ++ "-" ++ slugify title ++ ".md"
      = til_file_path date_str title := by
    simp [til_file_path, til_filename, String.append_assoc]
  have e1 := add_til_eval s date_str title content tags
    (hg_any _) (hp_any _) (hg_any _) (hp_any _)
  have e2 := add_til_eval
    (Store.mk (add_til_files s.files date_str title content tags)
      s.failGets s.failPuts)
    date_str title content tags
    (hg_any _) (hp_any _) (hg_any _) (hp_any _)
  refine ⟨hpath.symm, ?_, ?_, ?_, ?_⟩
  · simp only [e1]
    rw [hpath, add_til_files, assoc_find_set_file_ne _ _ hne,
      assoc_find_set_file_self]
  · intro hv
    have eP := add_prompt_eval s date_str name category content description
      hv (hg_any _) (hp_any _)
    simp only [eP]
    rw [show "ai/prompts/" ++ py_strip (py_lower category) ++ "/"
          ++ slugify name ++ ".md"
        = prompt_file_path (py_strip (py_lower category)) name from by
      simp [prompt_file_path, String.append_assoc]]
    rw [add_prompt_files]
    exact assoc_find_set_file_self _ _ _
  · intro hv
    have eQ := add_pattern_eval s date_str name category problem solution
      tags hv (hg_any _) (hp_any _)
    simp only [eQ]
    rw [show "patterns/" ++ py_strip (py_lower category) ++ "/"
          ++ slugify name ++ ".md"
        = pattern_file_path (py_strip (py_lower category)) name from by
      simp [pattern_file_path, String.append_assoc]]
    rw [add_pattern_files]
    exact assoc_find_set_file_self _ _ _
  · simp only [e1, e2]
    rw [hpath, add_til_files, assoc_find_set_file_ne _ _ hne,
      assoc_find_set_file_self]

/-- Witness for C2: the spec's scenario paths
`til/2024-01-15-learned-recursion.md` and `ai/prompts/coding/code-review.md`
hold the stored documents, also after a repeated identical call. -/
theorem storage_path_pure_witness :
    assoc_find
        (add_til ghStore ⟨[], [], []⟩ "2024-01-15" "Learned Recursion"
          "body" ["python", "algorithms"]).2.files
        "til/2024-01-15-learned-recursion.md"
      = some (til_full_content "2024-01-15" "Learned Recursion" "body"
          ["python", "algorithms"]) ∧
    assoc_find
        (add_prompt ghStore ⟨[], [], []⟩ "2024-01-15" "Code Review" "Coding"
          "body" "d").2.files
        "ai/prompts/coding/code-review.md"
      = some (prompt_full_content "2024-01-15" "Code Review" "coding"
          "body" "d") ∧
    assoc_find
        (add_til ghStore
          (add_til ghStore ⟨[], [], []⟩ "2024-01-15" "Learned Recursion"
            "body" ["python", "algorithms"]).2
          "2024-01-15" "Learned Recursion" "body"
          ["python", "algorithms"]).2.files
        "til/2024-01-15-learned-recursion.md"
      = some (til_full_content "2024-01-15" "Learned Recursion" "body"
          ["python", "algorithms"]) := by
  have hslug : slugify "Learned Recursion" = "learned-recursion" := by
    simp [slugify, slug_runs, join_dash]
  have hslug2 : slugify "Code Review" = "code-review" := by
    simp [slugify, slug_runs, join_dash]
  have h := storage_path_pure ⟨[], [], []⟩ "2024-01-15" "Learned Recursion"
    "Code Review" "Coding" "body" "d" "p" "sol" ["python", "algorithms"]
    (by simp [til_file_path, til_filename, hslug]) rfl rfl
  obtain ⟨-, h2, h3, -, h5⟩ := h
  have hcl : py_strip (py_lower "Coding") = "coding" := by decide
  refine ⟨?_, ?_, ?_⟩
  · rw [← h2]
    congr 1
    simp [hslug]
  · have h3' := h3 (by rw [hcl]; decide)
    rw [hcl] at h3'
    rw [← h3']
    congr 1
    simp [hslug2]
  · rw [← h5]
    congr 1
    simp [hslug]

/-! ### Search and listing (C6, C7) -/

lemma collect_matches_length_le (l : List SearchItem) :
    ∀ n, n < 20 → (collect_matches l n).length ≤ 20 - n := by
  induction l with
  | nil => intro n _; simp [collect_matches]
  | cons item rest ih =>
      intro n hn
      rw [collect_matches]
      by_cases hcap : n + 1 ≥ 20
      · rw [if_pos hcap]
        simp
        omega
      · rw [if_neg hcap]
        have := ih (n + 1) (by omega)
        simp only [List.length_cons]
        omega

lemma py_strip_length_le (x : String) : (py_strip x).length ≤ x.length := by
  show (((x.data.dropWhile Char.isWhitespace).reverse.dropWhile
      Char.isWhitespace).reverse).length ≤ x.data.length
  rw [List.length_reverse]
  calc ((x.data.dropWhile Char.isWhitespace).reverse.dropWhile
          Char.isWhitespace).length
      ≤ (x.data.dropWhile Char.isWhitespace).reverse.length :=
        List.Sublist.length_le (List.dropWhile_sublist _)
    _ = (x.data.dropWhile Char.isWhitespace).length := List.length_reverse _
    _ ≤ x.data.length := List.Sublist.length_le (List.dropWhile_sublist _)

/-- C6: `search_pkb` returns at most 20 matches; a fetched file's snippet is
the first 200 characters with newlines collapsed to spaces and stripped —
hence at most 200 characters — with `...` appended exactly when the content
exceeds 200 characters; and with zero matches the result is exactly the
no-results message. -/
theorem search_pkb_contract (query : String) (results : List SearchItem)
    (decoded : String) :
    (collect_matches results 0).length ≤ 20 ∧
    (∃ base : String, base.length ≤ 200 ∧
      base = py_strip (String.mk (collapse_nl (decoded.data.take 200))) ∧
      snippet_of decoded =
        (if decoded.length > 200 then base ++ "..." else base)) ∧
    search_pkb query [] = "No results found for '" ++ query ++ "'." := by
  refine ⟨?_, ?_, ?_⟩
  · have := collect_matches_length_le results 0 (by omega)
    omega
  · refine ⟨py_strip (String.mk (collapse_nl (decoded.data.take 200))),
      ?_, rfl, rfl⟩
    calc (py_strip (String.mk (collapse_nl (decoded.data.take 200)))).length
        ≤ (String.mk (collapse_nl (decoded.data.take 200))).length :=
          py_strip_length_le _
      _ = (collapse_nl (decoded.data.take 200)).length := rfl
      _ = (decoded.data.take 200).length := by
          simp [collapse_nl]
      _ ≤ 200 := by
          simp
  · simp [search_pkb, collect_matches]

/-- C7: with section `"all"`, `list_entries` renders the sections in the
fixed order til, prompts, patterns, each under its own header; a section
whose subtree is absent (404) or empty renders `(no entries yet)`; and the
recursive listing returns the empty sequence rather than an error when the
subtree does not exist. -/
theorem list_entries_all_sections (w : ListWorld) (sec p dirpath : String)
    (p1 p2 p3 : String) :
    (∀ exc : GHExc, exc.status = 404 →
      list_files_recursive (.error exc) = .ok ([] : List (String × String))) ∧
    list_files_recursive (.ok (GHTree.dir dirpath [])) =
      .ok ([] : List (String × String)) ∧
    (render_section w "til" = .ok p1 → render_section w "prompts" = .ok p2 →
      render_section w "patterns" = .ok p3 →
      list_entries w "all" =
        py_strip (String.intercalate "\n" [p1, p2, p3])) ∧
    (∀ exc : GHExc, exc.status = 404 →
      w.subtree ((assoc_find SECTION_PATH_MAP sec).getD "") = .error exc →
      render_section w sec =
        .ok ("## " ++ py_title sec ++ "\n" ++ "  (no entries yet)\n")) ∧
    (w.subtree ((assoc_find SECTION_PATH_MAP sec).getD "")
        = .ok (GHTree.dir p []) →
      render_section w sec =
        .ok ("## " ++ py_title sec ++ "\n" ++ "  (no entries yet)\n")) := by
  refine ⟨?_, ?_, ?_, ?_, ?_⟩
  · intro exc h404
    simp [list_files_recursive, h404]
  · simp [list_files_recursive, list_tree, list_tree_list]
  · intro h1 h2 h3
    have hall : py_strip (py_lower "all") = "all" := by decide
    simp only [list_entries, hall]
    rw [if_neg (by decide)]
    simp only [if_true]
    simp only [render_sections, h1, h2, h3, Except.map]
  · intro exc h404 hsub
    simp only [render_section, hsub, list_files_recursive, h404, if_pos]
    simp
  · intro hsub
    simp only [render_section, hsub, list_files_recursive]
    simp [list_tree, list_tree_list]

/-- Witness for C7: a world where every subtree read reports 404 lists all
three sections in order, each rendering `(no entries yet)`. -/
theorem list_entries_all_sections_witness :
    list_entries
        ⟨fun _ => .error ⟨404, "Not Found"⟩, fun _ => "unknown"⟩ "all" =
      "## Til\n  (no entries yet)\n\n## Prompts\n  (no entries yet)\n\n## Patterns\n  (no entries yet)" := by
  have hT := (list_entries_all_sections
    ⟨fun _ => .error ⟨404, "Not Found"⟩, fun _ => "unknown"⟩
    "til" "" "" "" "" "").2.2.2.1 ⟨404, "Not Found"⟩ rfl rfl
  have hP := (list_entries_all_sections
    ⟨fun _ => .error ⟨404, "Not Found"⟩, fun _ => "unknown"⟩
    "prompts" "" "" "" "" "").2.2.2.1 ⟨404, "Not Found"⟩ rfl rfl
  have hQ := (list_entries_all_sections
    ⟨fun _ => .error ⟨404, "Not Found"⟩, fun _ => "unknown"⟩
    "patterns" "" "" "" "" "").2.2.2.1 ⟨404, "Not Found"⟩ rfl rfl
  have h := (list_entries_all_sections
    ⟨fun _ => .error ⟨404, "Not Found"⟩, fun _ => "unknown"⟩
    "til" "" "" ("## " ++ py_title "til" ++ "\n" ++ "  (no entries yet)\n")
    ("## " ++ py_title "prompts" ++ "\n" ++ "  (no entries yet)\n")
    ("## " ++ py_title "patterns" ++ "\n" ++ "  (no entries yet)\n")).2.2.1
    hT hP hQ
  rw [h]
  decide
